import Mathlib

/-!
Verification of the xv6 event-driven multiclient chat server
(`user/chatserver.c`).

The server keeps a fixed array of `MAX_CLIENTS` client slots, a listening
socket, and a client counter.  The dispatch loop polls the listening socket
plus every active client socket and reacts to readiness results.  We embed
the server's pure data transformations as Lean functions over an explicit
`ServerState`, and its externally visible actions (system calls, console
output) as an explicit `Event` trace.  Results of environment calls
(`accept`, `read`, `write`) are inputs to the embedded handlers, so every
handler is a function of the state and of those results.
-/

set_option maxRecDepth 20000

namespace ChatServer

/-- `MAX_CLIENTS` from chatserver.c. -/
def MAX_CLIENTS : Nat := 14

/-- `BUF_SIZE` from chatserver.c. -/
def BUF_SIZE : Nat := 512

/-- One entry of the `clients` array: socket fd, active flag, nickname
(`name[32]`, modelled as the character list before the NUL), and the peer
address/port recorded at accept time. -/
structure Client where
  fd : Int
  active : Bool
  name : List Char
  addr : Nat
  port : Nat
  deriving DecidableEq

/-- The mutable global state of the server: the `clients` array (indexed by
slot) and the `num_clients` counter. -/
structure ServerState where
  clients : Fin MAX_CLIENTS → Client
  num_clients : Int

/-- Externally visible actions of the server, in program order: socket
system calls and `printf` console lines (the latter modelled structurally).
`setNonblock` stands for `fcntl(fd, F_SETFL, O_NONBLOCK)`, the call the
kernel branch provides for switching a handle to non-blocking mode. -/
inductive Event where
  | sockCreate (fd : Int)
  | sockBind (res : Int)
  | sockListen (res : Int)
  | sockAccept (fd : Int)
  | setNonblock (fd : Int)
  | readFd (fd : Int)
  | writeFd (fd : Int) (msg : List Char)
  | closeFd (fd : Int)
  | logAcceptFailed
  | logServerFull
  | logNewClient (slot fd : Int)
  | logDisconnect (name : List Char) (slot fd : Int)
  | logSendFailed (i : Nat)
  | logChat (msg : List Char)
  deriving DecidableEq

/-- Result of `read(fd, buf, BUF_SIZE - 1)` on a client socket, as the
kernel contract distinguishes it: `bytes s` is `n > 0` with payload `s`,
`eofR` is `n == 0` (orderly close), `notReady` is `n < 0` with `EAGAIN`
(no data available on a non-blocking handle), `hardErr` is `n < 0` for any
other cause.  The C code only observes the integer `n`, so it cannot tell
`notReady` from `hardErr`. -/
inductive ReadResult where
  | bytes (s : List Char)
  | eofR
  | notReady
  | hardErr
  deriving DecidableEq

/-- `find_empty_slot`: first inactive slot in ascending order;
`none` models the C return value `-1`. -/
def find_empty_slot (st : ServerState) : Option (Fin MAX_CLIENTS) :=
  (List.finRange MAX_CLIENTS).find? (fun i => !(st.clients i).active)

/-- `remove_client(slot)`: bounds-checked; on an active slot it logs the
disconnect, closes the fd, marks the slot inactive, clears the name and
decrements `num_clients`.  The C code leaves `addr` and `port` untouched. -/
def remove_client (slot : Int) (st : ServerState) : ServerState × List Event :=
  if h : 0 ≤ slot ∧ slot < (MAX_CLIENTS : Int) then
    let s : Fin MAX_CLIENTS := ⟨slot.toNat, by omega⟩
    if (st.clients s).active then
      ({ clients := Function.update st.clients s
           { fd := -1, active := false, name := [],
             addr := (st.clients s).addr, port := (st.clients s).port },
         num_clients := st.num_clients - 1 },
       [Event.logDisconnect
          (if (st.clients s).name = [] then "unknown".toList else (st.clients s).name)
          slot (st.clients s).fd,
        Event.closeFd (st.clients s).fd])
    else (st, [])
  else (st, [])

/-- `broadcast_message(msg, len, sender_slot)`: one write attempt per active
slot other than `sender_slot` (which may be `-1`, the no-exclusion
sentinel).  `wr` gives each slot's `write` return value; a negative result
is only logged.  The function touches no server state. -/
def broadcast_message (st : ServerState) (msg : List Char) (sender : Int)
    (wr : Fin MAX_CLIENTS → Int) : List Event :=
  (List.finRange MAX_CLIENTS).flatMap (fun i =>
    if (st.clients i).active && ((i.val : Int) != sender) then
      Event.writeFd (st.clients i).fd msg ::
        (if wr i < 0 then [Event.logSendFailed i.val] else [])
    else [])

/-- The write attempts contained in an event trace, as (fd, message)
pairs in order. -/
def writesOf (evs : List Event) : List (Int × List Char) :=
  evs.filterMap (fun e =>
    match e with
    | Event.writeFd f m => some (f, m)
    | _ => none)

/-- The default nickname generated for a slot: `"user"` followed by the
unpadded decimal digits of the slot number. -/
def defaultName (slot : Nat) : List Char :=
  "user".toList ++ Nat.toDigits 10 slot

/-- The capacity-exceeded notice sent to a connection accepted at full
capacity. -/
def serverFullMsg : List Char :=
  "Server is full. Please try again later.\n".toList

/-- The welcome line written to a freshly accepted client. -/
def welcomeMsg (name : List Char) : List Char :=
  "Welcome to xv6 Chat Server! Your name is: ".toList ++ name ++ ['\n']

/-- The join announcement. -/
def joinMsg (name : List Char) : List Char :=
  "*** ".toList ++ name ++ " has joined the chat ***\n".toList

/-- The leave announcement. -/
def leaveMsg (name : List Char) : List Char :=
  "*** ".toList ++ name ++ " has left the chat ***\n".toList

/-- The rename announcement, naming the old and the new nickname. -/
def renameMsg (oldN newN : List Char) : List Char :=
  "*** ".toList ++ oldN ++ " is now known as ".toList ++ newN ++ " ***\n".toList

/-- `handle_new_connection`: `acceptFd` is the value returned by
`accept(server_sock, ...)` and `peerAddr`/`peerPort` the reported peer
address.  A negative `acceptFd` is logged and nothing else happens.  With
no free slot, the capacity notice is written to the new fd and it is
closed, the registry untouched.  Otherwise the slot is populated (active,
default name derived from the slot number), `num_clients` is incremented,
a welcome line is written to the new client and a join announcement is
broadcast with the new slot excluded.  `wr` supplies the broadcast's
per-recipient `write` results. -/
def handle_new_connection (st : ServerState) (acceptFd : Int)
    (peerAddr peerPort : Nat) (wr : Fin MAX_CLIENTS → Int) :
    ServerState × List Event :=
  if acceptFd < 0 then (st, [Event.sockAccept acceptFd, Event.logAcceptFailed])
  else
    match find_empty_slot st with
    | none =>
        (st, [Event.sockAccept acceptFd, Event.logServerFull,
              Event.writeFd acceptFd serverFullMsg, Event.closeFd acceptFd])
    | some slot =>
        let st' : ServerState :=
          { clients := Function.update st.clients slot
              { fd := acceptFd, active := true, name := defaultName slot.val,
                addr := peerAddr, port := peerPort },
            num_clients := st.num_clients + 1 }
        (st', [Event.sockAccept acceptFd,
               Event.logNewClient slot.val acceptFd,
               Event.writeFd acceptFd (welcomeMsg (defaultName slot.val))]
              ++ broadcast_message st' (joinMsg (defaultName slot.val)) slot.val wr)

/-- The new nickname extracted by the `/name` handler: characters after
the 6-byte command prefix, stopped at the first `'\n'` or `'\r'` and
capped at 31 characters. -/
def extractNewName (s : List Char) : List Char :=
  ((s.drop 6).takeWhile (fun c => c != '\n' && c != '\r')).take 31

/-- The `/list` reply assembled for the requesting `slot`: a header line,
then one ` - name` row per active slot in ascending order, the requester's
row suffixed with ` (you)`.  Its length equals the C variable `llen` when
the terminating NUL is stored. -/
def listReply (st : ServerState) (slot : Fin MAX_CLIENTS) : List Char :=
  "Connected users:\n".toList ++
    (List.finRange MAX_CLIENTS).flatMap (fun i =>
      if (st.clients i).active then
        " - ".toList ++ (st.clients i).name ++
          (if i = slot then " (you)".toList else []) ++ ['\n']
      else [])

/-- A plain chat line as broadcast: `[nickname] ` prefix, the raw payload,
and a terminating newline appended when the payload does not already end
with one. -/
def chatMsg (name s : List Char) : List Char :=
  ['['] ++ name ++ "] ".toList ++ s ++
    (if s.getLast? = some '\n' then [] else ['\n'])

/-- The `n <= 0` path of `handle_client_data`: a leave announcement is
composed from the current nickname, the client is removed, and the
announcement is broadcast with the departed slot as `sender_slot`. -/
def handle_disconnect (st : ServerState) (slot : Fin MAX_CLIENTS)
    (wr : Fin MAX_CLIENTS → Int) : ServerState × List Event :=
  let lm := leaveMsg (st.clients slot).name
  let r := remove_client (slot.val : Int) st
  (r.1, Event.readFd (st.clients slot).fd ::
        (r.2 ++ broadcast_message r.1 lm (slot.val : Int) wr))

/-- The `n > 0` path of `handle_client_data` on payload `s`: data starting
with `"/name "` (and longer than 6 bytes) renames the client and
broadcasts the announcement to everyone (`sender_slot = -1`); otherwise
data starting with `"/list"` writes the listing back to the requester
only; anything else is tagged and broadcast with the sender excluded. -/
def handle_bytes (st : ServerState) (slot : Fin MAX_CLIENTS) (s : List Char)
    (wr : Fin MAX_CLIENTS → Int) : ServerState × List Event :=
  if s.length > 6 ∧ s.take 6 = "/name ".toList then
    let oldN := (st.clients slot).name
    let newN := extractNewName s
    let c' : Client := { (st.clients slot) with name := newN }
    let st' : ServerState :=
      { st with clients := Function.update st.clients slot c' }
    (st', Event.readFd (st.clients slot).fd ::
          broadcast_message st' (renameMsg oldN newN) (-1) wr)
  else if s.length ≥ 5 ∧ s.take 5 = "/list".toList then
    (st, [Event.readFd (st.clients slot).fd,
          Event.writeFd (st.clients slot).fd (listReply st slot)])
  else
    let msg := chatMsg (st.clients slot).name s
    (st, Event.readFd (st.clients slot).fd :: Event.logChat msg ::
         broadcast_message st msg slot.val wr)

/-- `handle_client_data(slot)`: reads from the slot's fd (result supplied
as `rd`).  Any `n <= 0` result — EOF, not-ready or hard error alike —
takes the disconnect path; a positive read dispatches on the payload. -/
def handle_client_data (st : ServerState) (slot : Fin MAX_CLIENTS)
    (rd : ReadResult) (wr : Fin MAX_CLIENTS → Int) : ServerState × List Event :=
  match rd with
  | ReadResult.bytes s => handle_bytes st slot s wr
  | _ => handle_disconnect st slot wr

/-- One client's share of the dispatch loop body (chatserver.c `main`,
the per-client scan): when the poll result reports `POLLIN` the data
handler runs first; when it reports `POLLERR` or `POLLHUP` a leave
announcement is composed from the nickname as it stands after any data
handling, the client is removed, and the announcement is broadcast with no
exclusion (`sender_slot = -1`). -/
def dispatchClient (st : ServerState) (i : Fin MAX_CLIENTS)
    (pollin errhup : Bool) (rd : ReadResult) (wr : Fin MAX_CLIENTS → Int) :
    ServerState × List Event :=
  let r1 := if pollin then handle_client_data st i rd wr else (st, [])
  if errhup then
    let lm := leaveMsg ((r1.1.clients i)).name
    let r2 := remove_client (i.val : Int) r1.1
    (r2.1, r1.2 ++ r2.2 ++ broadcast_message r2.1 lm (-1) wr)
  else r1

/-- The socket calls `main` performs before the event loop, with the
results of `socket`, `bind` and `listen` supplied by the environment; a
negative result aborts startup (after `socket` fails nothing more runs;
after `bind` or `listen` fails the socket is closed). -/
def startupTrace (sockFd bindRes listenRes : Int) : List Event :=
  Event.sockCreate sockFd ::
    (if sockFd < 0 then []
     else Event.sockBind bindRes ::
       (if bindRes < 0 then [Event.closeFd sockFd]
        else Event.sockListen listenRes ::
          (if listenRes < 0 then [Event.closeFd sockFd] else [])))

/-- The state set up by `init_clients()` on the zero-initialised static
array: every slot inactive with fd `-1`, empty name, zero address, and
`num_clients = 0`. -/
def init_clients : ServerState :=
  { clients := fun _ =>
      { fd := -1, active := false, name := [], addr := 0, port := 0 },
    num_clients := 0 }

/-- An active client record used to build concrete test states. -/
def mkClient (fd : Int) (nm : List Char) : Client :=
  { fd := fd, active := true, name := nm, addr := 0, port := 0 }

/-- Slot index 0. -/
def slot0 : Fin MAX_CLIENTS := ⟨0, by decide⟩

/-- Slot index 1. -/
def slot1 : Fin MAX_CLIENTS := ⟨1, by decide⟩

/-- Slot index 2. -/
def slot2 : Fin MAX_CLIENTS := ⟨2, by decide⟩

/-- Slot index 3. -/
def slot3 : Fin MAX_CLIENTS := ⟨3, by decide⟩

/-- A concrete test state: slots 0, 1, 2 active (fds 3, 4, 5, default
names), the rest free. -/
def st0 : ServerState :=
  { clients := fun i =>
      if i.val = 0 then mkClient 3 "user0".toList
      else if i.val = 1 then mkClient 4 "user1".toList
      else if i.val = 2 then mkClient 5 "user2".toList
      else (init_clients.clients i),
    num_clients := 3 }

/-- A concrete test state whose single active slot 0 carries a nonzero
peer address and port. -/
def st7 : ServerState :=
  { clients := fun i =>
      if i.val = 0 then
        { fd := 3, active := true, name := "user0".toList, addr := 42, port := 7 }
      else (init_clients.clients i),
    num_clients := 1 }

/-- A write-result oracle on which every `write` succeeds. -/
def wr0 : Fin MAX_CLIENTS → Int := fun _ => 1

/-- A write-result oracle on which the `write` to slot 1 fails with a
hard error and every other `write` succeeds. -/
def wrFail : Fin MAX_CLIENTS → Int := fun i => if i.val = 1 then -1 else 1

/-- The state reached from `init_clients` by 14 successful accepts
(fds 3..16). -/
def acceptAll : ServerState :=
  (List.range MAX_CLIENTS).foldl
    (fun st k => (handle_new_connection st ((3 : Int) + k) 0 0 wr0).1)
    init_clients

/-- A rename command whose argument is 31 characters long. -/
def renameCmd : List Char :=
  "/name ".toList ++ List.replicate 31 'a' ++ ['\n']

/-- The state reached from `acceptAll` by every client issuing the
31-character rename: 14 active clients, each with a 31-character
nickname.  Reachable from the initial state by construction. -/
def renamedAll : ServerState :=
  (List.finRange MAX_CLIENTS).foldl
    (fun st i => (handle_client_data st i (ReadResult.bytes renameCmd) wr0).1)
    acceptAll

/-- A full-capacity state: every slot active with a 31-character
nickname. -/
def worstState : ServerState :=
  { clients := fun _ => mkClient 3 (List.replicate 31 'a'), num_clients := 14 }

/-- The state produced by `remove_client` on an in-range active slot:
inactive, fd `-1`, name cleared, `addr` and `port` kept as they were,
counter decremented. -/
def removedState (st : ServerState) (s : Fin MAX_CLIENTS) : ServerState :=
  { clients := Function.update st.clients s
      { fd := -1, active := false, name := [],
        addr := (st.clients s).addr, port := (st.clients s).port },
    num_clients := st.num_clients - 1 }

/-- The state produced by the `/name` branch on payload `s`: only the
slot's nickname changes, to `extractNewName s`. -/
def renamedState (st : ServerState) (slot : Fin MAX_CLIENTS) (s : List Char) :
    ServerState :=
  let c' : Client := { (st.clients slot) with name := extractNewName s }
  { st with clients := Function.update st.clients slot c' }

theorem writesOf_append (a b : List Event) :
    writesOf (a ++ b) = writesOf a ++ writesOf b := by
  simp [writesOf, List.filterMap_append]

theorem writesOf_broadcast (st : ServerState) (msg : List Char) (sender : Int)
    (wr : Fin MAX_CLIENTS → Int) :
    writesOf (broadcast_message st msg sender wr) =
      ((List.finRange MAX_CLIENTS).filter
        (fun i => (st.clients i).active && ((i.val : Int) != sender))).map
        (fun i => ((st.clients i).fd, msg)) := by
  rw [broadcast_message]
  induction (List.finRange MAX_CLIENTS) with
  | nil => rfl
  | cons a l ih =>
    rw [List.flatMap_cons, List.filter_cons, writesOf_append, ih]
    cases h : ((st.clients a).active && ((a.val : Int) != sender))
    · rfl
    · by_cases hw : wr a < 0 <;> simp [hw, writesOf]

theorem mem_broadcast_message (st : ServerState) (msg : List Char) (sender : Int)
    (wr : Fin MAX_CLIENTS → Int) (e : Event)
    (he : e ∈ broadcast_message st msg sender wr) :
    ∃ i : Fin MAX_CLIENTS,
      e = Event.writeFd (st.clients i).fd msg ∨ e = Event.logSendFailed i.val := by
  rw [broadcast_message, List.mem_flatMap] at he
  obtain ⟨i, -, hi⟩ := he
  refine ⟨i, ?_⟩
  by_cases h : ((st.clients i).active && ((i.val : Int) != sender)) = true
  · rw [if_pos h] at hi
    by_cases hw : wr i < 0
    · simp [hw] at hi
      rcases hi with h1 | h1
      · exact Or.inl h1
      · exact Or.inr h1
    · simp [hw] at hi
      exact Or.inl hi
  · rw [if_neg h] at hi
    simp at hi

theorem remove_client_active (st : ServerState) (s : Fin MAX_CLIENTS)
    (h : (st.clients s).active = true) :
    remove_client (s.val : Int) st =
      ({ clients := Function.update st.clients s
           { fd := -1, active := false, name := [],
             addr := (st.clients s).addr, port := (st.clients s).port },
         num_clients := st.num_clients - 1 },
       [Event.logDisconnect
          (if (st.clients s).name = [] then "unknown".toList else (st.clients s).name)
          (s.val : Int) (st.clients s).fd,
        Event.closeFd (st.clients s).fd]) := by
  have h0 : (0 : Int) ≤ (s.val : Int) ∧ (s.val : Int) < (MAX_CLIENTS : Int) := by
    constructor
    · exact Int.natCast_nonneg _
    · exact_mod_cast s.is_lt
  rw [remove_client, dif_pos h0]
  simp only [Int.toNat_natCast, Fin.eta, h, if_true]

theorem remove_client_inactive (st : ServerState) (s : Fin MAX_CLIENTS)
    (h : (st.clients s).active = false) :
    remove_client (s.val : Int) st = (st, []) := by
  have h0 : (0 : Int) ≤ (s.val : Int) ∧ (s.val : Int) < (MAX_CLIENTS : Int) := by
    constructor
    · exact Int.natCast_nonneg _
    · exact_mod_cast s.is_lt
  rw [remove_client, dif_pos h0]
  simp [Int.toNat_natCast, Fin.eta, h]

theorem remove_client_result_inactive (st : ServerState) (s : Fin MAX_CLIENTS) :
    (((remove_client (s.val : Int) st).1.clients s)).active = false := by
  by_cases h : (st.clients s).active = true
  · rw [remove_client_active st s h]
    simp [Function.update_same]
  · rw [remove_client_inactive st s (by simpa using h)]
    simpa using h

theorem find_empty_slot_eq_none (st : ServerState)
    (h : ∀ i, (st.clients i).active = true) :
    find_empty_slot st = none := by
  rw [find_empty_slot, List.find?_eq_none]
  intro i _
  simp [h i]

theorem find_empty_slot_isSome (st : ServerState) (s : Fin MAX_CLIENTS)
    (h : (st.clients s).active = false) :
    (find_empty_slot st).isSome = true := by
  rw [find_empty_slot, List.find?_isSome]
  exact ⟨s, List.mem_finRange s, by simp [h]⟩

theorem length_gt_six_of_name_line (s : List Char)
    (h1 : s.take 6 = "/name ".toList) (h2 : s.getLast? = some '\n') :
    6 < s.length := by
  by_contra hle
  push_neg at hle
  have hs : s = "/name ".toList := by
    rw [← h1, List.take_of_length_le hle]
  rw [hs] at h2
  exact absurd h2 (by decide)

theorem readFd_mem_handle_client_data (st : ServerState) (slot : Fin MAX_CLIENTS)
    (rd : ReadResult) (wr : Fin MAX_CLIENTS → Int) :
    Event.readFd ((st.clients slot).fd) ∈ (handle_client_data st slot rd wr).2 := by
  cases rd with
  | bytes s =>
      show Event.readFd ((st.clients slot).fd) ∈ (handle_bytes st slot s wr).2
      unfold handle_bytes
      split_ifs <;> exact List.mem_cons_self _ _
  | eofR => exact List.mem_cons_self _ _
  | notReady => exact List.mem_cons_self _ _
  | hardErr => exact List.mem_cons_self _ _


/-- C1: on a not-ready read result (n = -1, EAGAIN) the code does NOT
leave the session untouched: on the concrete state `st0` the session at
slot 0 is torn down, a leave announcement is broadcast to the remaining
session, and a disconnect line is logged — the `n <= 0` branch of
`handle_client_data` makes no distinction between not-ready, EOF and hard
error. -/
theorem c1_notReady_tears_down :
    (st0.clients slot0).active = true ∧
    ((handle_client_data st0 slot0 ReadResult.notReady wr0).1.clients slot0).active = false ∧
    ((st0.clients slot1).fd, leaveMsg "user0".toList) ∈
      writesOf (handle_client_data st0 slot0 ReadResult.notReady wr0).2 ∧
    Event.logDisconnect "user0".toList 0 3 ∈
      (handle_client_data st0 slot0 ReadResult.notReady wr0).2 := by
  decide

/-- C2 counterexample: a session whose poll result reports both
data-available and hang-up (`pollin = errhup = true`) IS read from in
that cycle — the read happens and its payload is handled (here broadcast
as a chat line) before the hang-up teardown, contradicting the claim that
such a session is torn down and never read from. -/
theorem c2_counterexample :
    (st0.clients slot0).active = true ∧
    Event.readFd (st0.clients slot0).fd ∈
      (dispatchClient st0 slot0 true true (ReadResult.bytes "hi\n".toList) wr0).2 ∧
    ((st0.clients slot1).fd, chatMsg "user0".toList "hi\n".toList) ∈
      writesOf (dispatchClient st0 slot0 true true (ReadResult.bytes "hi\n".toList) wr0).2 := by
  decide

/-- C2 amended: when both data-available and hang-up/error are reported
for an active session, the data handling runs first — the session is read
from — and afterwards the hang-up handling tears the session down, so the
slot ends the cycle inactive. -/
theorem c2_amended (st : ServerState) (i : Fin MAX_CLIENTS) (rd : ReadResult)
    (wr : Fin MAX_CLIENTS → Int) (hact : (st.clients i).active = true) :
    ((dispatchClient st i true true rd wr).1.clients i).active = false ∧
    Event.readFd ((st.clients i).fd) ∈ (dispatchClient st i true true rd wr).2 := by
  refine ⟨?_, ?_⟩
  · exact remove_client_result_inactive (handle_client_data st i rd wr).1 i
  · exact List.mem_append_left _
      (List.mem_append_left _ (readFd_mem_handle_client_data st i rd wr))

/-- Witness for the amended C2 at a concrete input. -/
theorem c2_witness :
    ((dispatchClient st0 slot0 true true ReadResult.eofR wr0).1.clients slot0).active = false :=
  (c2_amended st0 slot0 ReadResult.eofR wr0 (by decide)).1

/-- C3: when an accept succeeds (`0 ≤ acceptFd`) while every slot is
active, the new handle receives the capacity notice and is closed, and
the server state — registry and `num_clients` — is returned unchanged. -/
theorem c3_capacity_reject (st : ServerState) (acceptFd : Int) (a p : Nat)
    (wr : Fin MAX_CLIENTS → Int) (hful : ∀ i, (st.clients i).active = true)
    (hfd : 0 ≤ acceptFd) :
    handle_new_connection st acceptFd a p wr =
      (st, [Event.sockAccept acceptFd, Event.logServerFull,
            Event.writeFd acceptFd serverFullMsg, Event.closeFd acceptFd]) := by
  unfold handle_new_connection
  rw [if_neg (by omega), find_empty_slot_eq_none st hful]

/-- Witness for C3 at a concrete full-capacity state. -/
theorem c3_witness :
    handle_new_connection worstState 20 0 0 wr0 =
      (worstState, [Event.sockAccept 20, Event.logServerFull,
                    Event.writeFd 20 serverFullMsg, Event.closeFd 20]) :=
  c3_capacity_reject worstState 20 0 0 wr0 (by decide) (by decide)

theorem natCast_bne_neg_one (n : Nat) : ((n : Int) != (-1 : Int)) = true := by
  simp only [bne_iff_ne, ne_eq]
  omega

theorem handle_disconnect_eq (st : ServerState) (slot : Fin MAX_CLIENTS)
    (wr : Fin MAX_CLIENTS → Int) (hact : (st.clients slot).active = true) :
    handle_disconnect st slot wr =
      (removedState st slot,
       Event.readFd (st.clients slot).fd ::
         ([Event.logDisconnect
             (if (st.clients slot).name = [] then "unknown".toList else (st.clients slot).name)
             (slot.val : Int) (st.clients slot).fd,
           Event.closeFd (st.clients slot).fd] ++
          broadcast_message (removedState st slot)
            (leaveMsg (st.clients slot).name) (slot.val : Int) wr)) := by
  simp only [handle_disconnect]
  rw [remove_client_active st slot hact]
  rfl

/-- C4: a read of EOF or a hard error on an active session tears the
session down: the slot becomes inactive (and some slot is then free, so a
later accept can allocate), and the write attempts of the handler are
exactly one leave announcement — composed from the session's last-known
nickname — per remaining active slot, the departing slot excluded; the
recipient list has no duplicates, so each recipient gets exactly one. -/
theorem c4_eof_teardown (st : ServerState) (slot : Fin MAX_CLIENTS)
    (wr : Fin MAX_CLIENTS → Int) (rd : ReadResult)
    (hrd : rd = ReadResult.eofR ∨ rd = ReadResult.hardErr)
    (hact : (st.clients slot).active = true) :
    ((handle_client_data st slot rd wr).1.clients slot).active = false ∧
    (find_empty_slot (handle_client_data st slot rd wr).1).isSome = true ∧
    writesOf (handle_client_data st slot rd wr).2 =
      ((List.finRange MAX_CLIENTS).filter
        (fun i => ((handle_client_data st slot rd wr).1.clients i).active &&
          ((i.val : Int) != (slot.val : Int)))).map
        (fun i => (((handle_client_data st slot rd wr).1.clients i).fd,
          leaveMsg (st.clients slot).name)) ∧
    ((List.finRange MAX_CLIENTS).filter
        (fun i => ((handle_client_data st slot rd wr).1.clients i).active &&
          ((i.val : Int) != (slot.val : Int)))).Nodup := by
  have hset : handle_client_data st slot rd wr = handle_disconnect st slot wr := by
    rcases hrd with h | h <;> subst h <;> rfl
  rw [hset, handle_disconnect_eq st slot wr hact]
  refine ⟨?_, ?_, ?_, ?_⟩
  · simp [removedState, Function.update_same]
  · exact find_empty_slot_isSome _ slot (by simp [removedState, Function.update_same])
  · have hw : writesOf (Event.readFd (st.clients slot).fd ::
        ([Event.logDisconnect
            (if (st.clients slot).name = [] then "unknown".toList else (st.clients slot).name)
            (slot.val : Int) (st.clients slot).fd,
          Event.closeFd (st.clients slot).fd] ++
         broadcast_message (removedState st slot)
           (leaveMsg (st.clients slot).name) (slot.val : Int) wr)) =
        writesOf (broadcast_message (removedState st slot)
          (leaveMsg (st.clients slot).name) (slot.val : Int) wr) := by
      simp [writesOf, List.filterMap_append]
    rw [hw, writesOf_broadcast]
  · exact (List.nodup_finRange _).filter _

/-- Witness for C4 at a concrete input. -/
theorem c4_witness :
    ((handle_client_data st0 slot0 ReadResult.eofR wr0).1.clients slot0).active = false :=
  (c4_eof_teardown st0 slot0 wr0 ReadResult.eofR (Or.inl rfl) (by decide)).1

/-- C5: a read of a newline-terminated line starting with "/name " on an
active session replaces that session's nickname by the remainder of the
line truncated at a line terminator and capped at 31 characters, changes
no other slot, and broadcasts one rename announcement naming the old and
the new nickname to every active session, the renaming session itself
included. -/
theorem c5_rename (st : ServerState) (slot : Fin MAX_CLIENTS)
    (wr : Fin MAX_CLIENTS → Int) (s : List Char)
    (hact : (st.clients slot).active = true)
    (hpre : s.take 6 = "/name ".toList)
    (hnl : s.getLast? = some '\n') :
    ((handle_client_data st slot (ReadResult.bytes s) wr).1.clients slot).name
        = extractNewName s ∧
    (extractNewName s).length ≤ 31 ∧
    (∀ j, j ≠ slot →
      (handle_client_data st slot (ReadResult.bytes s) wr).1.clients j = st.clients j) ∧
    writesOf (handle_client_data st slot (ReadResult.bytes s) wr).2 =
      ((List.finRange MAX_CLIENTS).filter
        (fun i => ((handle_client_data st slot (ReadResult.bytes s) wr).1.clients i).active)).map
        (fun i => (((handle_client_data st slot (ReadResult.bytes s) wr).1.clients i).fd,
          renameMsg (st.clients slot).name (extractNewName s))) ∧
    ((st.clients slot).fd,
      renameMsg (st.clients slot).name (extractNewName s)) ∈
      writesOf (handle_client_data st slot (ReadResult.bytes s) wr).2 := by
  have hlen : 6 < s.length := length_gt_six_of_name_line s hpre hnl
  have heq : handle_client_data st slot (ReadResult.bytes s) wr =
      (renamedState st slot s,
       Event.readFd (st.clients slot).fd ::
         broadcast_message (renamedState st slot s)
           (renameMsg (st.clients slot).name (extractNewName s)) (-1) wr) := by
    show handle_bytes st slot s wr = _
    unfold handle_bytes
    rw [if_pos ⟨hlen, hpre⟩]
    rfl
  have hwb : writesOf (handle_client_data st slot (ReadResult.bytes s) wr).2 =
      ((List.finRange MAX_CLIENTS).filter
        (fun i => ((renamedState st slot s).clients i).active)).map
        (fun i => (((renamedState st slot s).clients i).fd,
          renameMsg (st.clients slot).name (extractNewName s))) := by
    rw [heq]
    have hw : writesOf (Event.readFd (st.clients slot).fd ::
        broadcast_message (renamedState st slot s)
          (renameMsg (st.clients slot).name (extractNewName s)) (-1) wr) =
        writesOf (broadcast_message (renamedState st slot s)
          (renameMsg (st.clients slot).name (extractNewName s)) (-1) wr) := by
      simp [writesOf]
    rw [hw, writesOf_broadcast]
    congr 1
    apply List.filter_congr
    intro i _
    rw [natCast_bne_neg_one i.val, Bool.and_true]
  refine ⟨?_, ?_, ?_, ?_, ?_⟩
  · rw [heq]
    simp [renamedState, Function.update_same]
  · rw [extractNewName]
    simp [List.length_take]
  · intro j hj
    rw [heq]
    simp [renamedState, Function.update_noteq hj]
  · rw [hwb, heq]
  · rw [hwb]
    refine List.mem_map.mpr ⟨slot, List.mem_filter.mpr ⟨List.mem_finRange slot, ?_⟩, ?_⟩
    · simp [renamedState, Function.update_same, hact]
    · simp [renamedState, Function.update_same]

/-- Witness for C5 at a concrete input. -/
theorem c5_witness :
    ((handle_client_data st0 slot0 (ReadResult.bytes "/name alice\n".toList) wr0).1.clients slot0).name
      = "alice".toList :=
  ((c5_rename st0 slot0 wr0 "/name alice\n".toList (by decide) (by decide) (by decide)).1).trans
    (by decide)



/-- C6 counterexample: a hard write error on a broadcast recipient (slot 1
via `wrFail`) is only logged: the server state afterwards is identical to
the state before — the failing recipient is still active and unmarked, so
no recipient is "marked for later teardown" — while the write attempt to
the later recipient (slot 2) still takes place. -/
theorem c6_counterexample :
    wrFail slot1 = -1 ∧
    (st0.clients slot1).active = true ∧
    (handle_client_data st0 slot0 (ReadResult.bytes "hi\n".toList) wrFail).1 = st0 ∧
    Event.logSendFailed 1 ∈
      (handle_client_data st0 slot0 (ReadResult.bytes "hi\n".toList) wrFail).2 ∧
    ((st0.clients slot2).fd, chatMsg "user0".toList "hi\n".toList) ∈
      writesOf (handle_client_data st0 slot0 (ReadResult.bytes "hi\n".toList) wrFail).2 :=
  ⟨by decide, by decide, rfl, by decide, by decide⟩

/-- C6 amended: the write attempts of a broadcast are exactly one full
message per active slot other than the excluded sender (so the excluded
slot never receives it), they are the same regardless of the
per-recipient write results (a failing write never short-circuits the
fan-out), and every event a broadcast emits is a write or a send-failure
log — it performs no close, no teardown and no state change. -/
theorem c6_amended (st : ServerState) (msg : List Char) (sender : Int)
    (wr : Fin MAX_CLIENTS → Int) :
    writesOf (broadcast_message st msg sender wr) =
      ((List.finRange MAX_CLIENTS).filter
        (fun i => (st.clients i).active && ((i.val : Int) != sender))).map
        (fun i => ((st.clients i).fd, msg)) ∧
    (∀ wr', writesOf (broadcast_message st msg sender wr) =
      writesOf (broadcast_message st msg sender wr')) ∧
    (∀ e ∈ broadcast_message st msg sender wr,
      ∃ i : Fin MAX_CLIENTS,
        e = Event.writeFd (st.clients i).fd msg ∨ e = Event.logSendFailed i.val) := by
  refine ⟨writesOf_broadcast st msg sender wr, ?_, ?_⟩
  · intro wr'
    rw [writesOf_broadcast, writesOf_broadcast]
  · exact fun e he => mem_broadcast_message st msg sender wr e he

/-- Witness for the amended C6 at a concrete input. -/
theorem c6_witness :
    writesOf (broadcast_message st0 "x".toList (-1) wrFail) =
      [((3 : Int), "x".toList), ((4 : Int), "x".toList), ((5 : Int), "x".toList)] :=
  ((c6_amended st0 "x".toList (-1) wrFail).1).trans (by decide)

/-- C7 counterexample: releasing the active slot 0 of `st7` (peer address
42, port 7) marks it inactive but leaves the peer address and port fields
at their old nonzero values — `remove_client` does not clear them. -/
theorem c7_counterexample :
    (st7.clients slot0).active = true ∧ (st7.clients slot0).addr = 42 ∧
    ((remove_client 0 st7).1.clients slot0).active = false ∧
    ((remove_client 0 st7).1.clients slot0).addr = 42 ∧
    ((remove_client 0 st7).1.clients slot0).port = 7 ∧
    (42 : Nat) ≠ 0 := by
  decide

/-- C7 amended: releasing an active slot marks it inactive, closes its
handle exactly once (one `closeFd` in the event list), clears the
nickname and decrements the counter, while the peer address and port are
kept unchanged; releasing an inactive slot is a no-op with no events. -/
theorem c7_amended (st : ServerState) (s : Fin MAX_CLIENTS) :
    ((st.clients s).active = true →
      remove_client (s.val : Int) st =
        (removedState st s,
         [Event.logDisconnect
            (if (st.clients s).name = [] then "unknown".toList else (st.clients s).name)
            (s.val : Int) (st.clients s).fd,
          Event.closeFd (st.clients s).fd])) ∧
    ((st.clients s).active = false → remove_client (s.val : Int) st = (st, [])) := by
  constructor
  · intro h
    exact remove_client_active st s h
  · intro h
    exact remove_client_inactive st s h

/-- Witness for the amended C7 at concrete inputs. -/
theorem c7_witness :
    remove_client 0 st7 =
      (removedState st7 slot0,
       [Event.logDisconnect "user0".toList 0 3, Event.closeFd 3]) ∧
    remove_client 0 init_clients = (init_clients, []) :=
  ⟨((c7_amended st7 slot0).1 (by decide)).trans
     (congrArg (Prod.mk (removedState st7 slot0)) (by decide)),
   (c7_amended init_clients slot0).2 (by decide)⟩

/-- C8: neither the startup sequence (socket/bind/listen) nor the accept
handler ever performs the set-non-blocking call: no `setNonblock` event
occurs in any of their traces, for any environment results — the code
never switches any handle to non-blocking mode. -/
theorem c8_no_nonblocking (f sockFd bindRes listenRes : Int) (st : ServerState)
    (acceptFd : Int) (a p : Nat) (wr : Fin MAX_CLIENTS → Int) :
    Event.setNonblock f ∉ startupTrace sockFd bindRes listenRes ∧
    Event.setNonblock f ∉ (handle_new_connection st acceptFd a p wr).2 := by
  constructor
  · intro hmem
    rw [startupTrace] at hmem
    split_ifs at hmem <;> simp_all
  · intro hmem
    unfold handle_new_connection at hmem
    split_ifs at hmem
    · simp_all
    · cases hslot : find_empty_slot st with
      | none =>
          rw [hslot] at hmem
          simp_all
      | some slot =>
          rw [hslot] at hmem
          simp only [List.mem_append, List.mem_cons, List.mem_singleton] at hmem
          rcases hmem with (h | h | h | h) | hmem
          · exact Event.noConfusion h
          · exact Event.noConfusion h
          · exact Event.noConfusion h
          · exact absurd h (by simp)
          · obtain ⟨i, h | h⟩ := mem_broadcast_message _ _ _ _ _ hmem <;>
              exact Event.noConfusion h

/-- C9 counterexample: after the 7-byte rename command "/name \n" the
session at slot 0 is still active but its nickname is the empty string —
a rename does not preserve non-emptiness. -/
theorem c9_counterexample :
    ((handle_client_data st0 slot0 (ReadResult.bytes "/name \n".toList) wr0).1.clients slot0).active = true ∧
    ((handle_client_data st0 slot0 (ReadResult.bytes "/name \n".toList) wr0).1.clients slot0).name = [] := by
  decide

/-- C9 amended: a session activated by a successful accept into a free
slot gets a non-empty default nickname, and a rename yields a non-empty
nickname whenever the extracted rename argument is non-empty. -/
theorem c9_amended (st : ServerState) (acceptFd : Int) (a p : Nat)
    (wr : Fin MAX_CLIENTS → Int) (s : Fin MAX_CLIENTS)
    (slot : Fin MAX_CLIENTS) (bs : List Char) :
    (find_empty_slot st = some s → 0 ≤ acceptFd →
      ((handle_new_connection st acceptFd a p wr).1.clients s).name ≠ []) ∧
    (6 < bs.length → bs.take 6 = "/name ".toList → extractNewName bs ≠ [] →
      ((handle_client_data st slot (ReadResult.bytes bs) wr).1.clients slot).name ≠ []) := by
  constructor
  · intro hs hfd
    unfold handle_new_connection
    rw [if_neg (by omega), hs]
    simp [Function.update_same, defaultName]
  · intro hlen hpre hne
    show ((handle_bytes st slot bs wr).1.clients slot).name ≠ []
    unfold handle_bytes
    rw [if_pos ⟨hlen, hpre⟩]
    simpa [Function.update_same] using hne

/-- Witness for the amended C9 at concrete inputs. -/
theorem c9_witness :
    ((handle_new_connection st0 20 9 9 wr0).1.clients slot3).name ≠ [] ∧
    ((handle_client_data st0 slot0 (ReadResult.bytes "/name bob\n".toList) wr0).1.clients slot0).name ≠ [] :=
  ⟨(c9_amended st0 20 9 9 wr0 slot3 slot0 "/name bob\n".toList).1 (by decide) (by decide),
   (c9_amended st0 20 9 9 wr0 slot3 slot0 "/name bob\n".toList).2 (by decide) (by decide) (by decide)⟩

/-- C10: in the state `renamedAll` — reached from the initial state by 14
successful accepts followed by one 31-character rename per client — the
/list reply for slot 0 is 513 characters, so storing it plus its
terminating NUL writes 514 bytes into the 512-byte buffer: the write
index exceeds the buffer's capacity by two. -/
theorem c10_list_overflow :
    (∀ i, (renamedAll.clients i).active = true ∧
      (renamedAll.clients i).name.length ≤ 31) ∧
    (listReply renamedAll slot0).length + 1 = 514 ∧
    BUF_SIZE < (listReply renamedAll slot0).length + 1 :=
  ⟨by decide, by decide, by decide⟩


end ChatServer
